import Mathlib

/-!
Shallow embedding of the host-identification / interface-reconciliation engine
of the `nm-configurator` repository (`src/apply_conf.rs`, `src/generate_conf.rs`,
`src/types.rs`), together with theorems settling the frozen claims about it.

Rust `String` values are modelled as Lean `String`; Rust `Option<String>` as
`Option String`; `Vec<T>` as `List T`; `HashMap<String, String>` as an
association list with insert-replaces-value semantics (the hash map is
unordered, the list fixes insertion order, which no settled claim depends on);
fallible functions returning `anyhow::Result` are modelled as `Except String`.
String helpers (`contains`, `replace`, `to_lowercase`, `starts_with`,
`ends_with`) are re-implemented by structural recursion over the character
list so that all definitions evaluate inside the kernel.
-/

namespace NmConfigurator

/-- Model of `str::is_prefix`-style matching: `isPrefixList p l` is true iff the
character list `p` is a prefix of `l`. Mirrors `<[u8]>::starts_with`. -/
def isPrefixList : List Char → List Char → Bool
  | [], _ => true
  | _ :: _, [] => false
  | a :: as, b :: bs => a == b && isPrefixList as bs

/-- Model of Rust `str::contains(pat)` (substring search): `containsGo pat l`
is true iff `pat` occurs as a contiguous sublist of `l`. -/
def containsGo (pat : List Char) : List Char → Bool
  | [] => pat.isEmpty
  | c :: cs => isPrefixList pat (c :: cs) || containsGo pat cs

/-- Model of Rust `String::contains`: `strContains s pat` is true iff `pat`
occurs as a substring of `s`. -/
def strContains (s pat : String) : Bool :=
  containsGo pat.data s.data

/-- Fuelled worker for `strReplace`; replaces non-overlapping occurrences of
`pat` left to right, exactly as Rust `str::replace` does for a non-empty
pattern. The fuel is the length of the scanned list, which bounds the number
of recursive steps. -/
def replaceGo (pat rep : List Char) : Nat → List Char → List Char
  | _, [] => []
  | 0, l => l
  | fuel + 1, c :: cs =>
    if isPrefixList pat (c :: cs) then
      rep ++ replaceGo pat rep fuel (cs.drop (pat.length - 1))
    else
      c :: replaceGo pat rep fuel cs

/-- Model of Rust `str::replace(pat, rep)` for the patterns the program uses
(interface names): every non-overlapping occurrence of `pat` in `s` is
replaced by `rep`, scanning left to right. An empty pattern leaves the string
unchanged. -/
def strReplace (s pat rep : String) : String :=
  if pat.data.isEmpty then s else ⟨replaceGo pat.data rep.data s.data.length s.data⟩

/-- Model of Rust `str::to_lowercase` restricted to the ASCII range in which
MAC addresses live: lower-cases every character. -/
def strToLower (s : String) : String :=
  ⟨s.data.map Char.toLower⟩

/-- Model of Rust `str::starts_with`. -/
def strStartsWith (s pre : String) : Bool :=
  isPrefixList pre.data s.data

/-- Model of Rust `str::ends_with`. -/
def strEndsWith (s suf : String) : Bool :=
  isPrefixList suf.data.reverse s.data.reverse

/-- Model of Rust `Vec::join(sep)` on a vector of strings. -/
def joinSep (sep : String) : List String → String
  | [] => ""
  | [x] => x
  | x :: y :: xs => x ++ sep ++ joinSep sep (y :: xs)

/-- `Interface` from `src/types.rs`: one preconfigured network interface of a
host (logical name, optional MAC address, interface type, attributed
connection ids). -/
structure Interface where
  logical_name : String
  mac_address : Option String
  interface_type : String
  connection_ids : List String
deriving DecidableEq

/-- `Host` from `src/types.rs`: a host identifier together with its ordered
interface list. -/
structure Host where
  hostname : String
  interfaces : List Interface
deriving DecidableEq

/-- The fields of `network_interface::NetworkInterface` the program reads:
the kernel-assigned name and the optional MAC address of a locally observed
NIC (the crate's `addr`/`index` fields are never consulted). -/
structure NetworkInterface where
  name : String
  mac_addr : Option String
deriving DecidableEq

/-- The per-host normalization performed by `parse_hosts`
(`src/apply_conf.rs`, lines 64-70): every present `mac_address` of every
interface is lower-cased; local NIC data is left untouched. -/
def parse_hosts_normalization (hosts : List Host) : List Host :=
  hosts.map fun h =>
    { h with
      interfaces := h.interfaces.map fun i =>
        { i with mac_address := i.mac_address.map strToLower } }

/-- The matching predicate inlined in `identify_host` (`src/apply_conf.rs`,
lines 77-83): a host matches iff one of its interfaces has a `mac_address`
equal to the `mac_addr` of some local NIC that itself has a MAC address. -/
def host_matches (h : Host) (network_interfaces : List NetworkInterface) : Bool :=
  h.interfaces.any fun interface =>
    (network_interfaces.filter fun nic => nic.mac_addr.isSome).any fun nic =>
      nic.mac_addr == interface.mac_address

/-- `identify_host` from `src/apply_conf.rs` (lines 76-85): the first host of
the list matching the local NICs, if any. -/
def identify_host (hosts : List Host) (network_interfaces : List NetworkInterface) :
    Option Host :=
  hosts.find? fun h => host_matches h network_interfaces

/-- A host fails the `identify_host` predicate exactly when none of its
interfaces' MAC addresses is reported by a MAC-carrying local NIC. -/
lemma host_matches_eq_false_iff (h : Host) (nics : List NetworkInterface) :
    host_matches h nics = false ↔
      ∀ i ∈ h.interfaces, ∀ n ∈ nics, ∀ m : String,
        n.mac_addr = some m → i.mac_address ≠ some m := by
  rw [Bool.eq_false_iff]
  unfold host_matches
  simp only [ne_eq, List.any_eq_true, List.mem_filter, beq_iff_eq, not_exists, not_and]
  constructor
  · intro hno i hi n hn m hm hcontra
    exact hno i hi n ⟨hn, by simp [hm]⟩ (by simp [hm, hcontra])
  · rintro hall i hi n ⟨hn, hsome⟩ heq
    obtain ⟨m, hm⟩ := Option.isSome_iff_exists.mp hsome
    exact hall i hi n hn m hm (by rw [← heq, hm])

/-- `List.find?` returns the first element satisfying the predicate. -/
lemma find?_first {α : Type} (p : α → Bool) (pre : List α) (a : α) (post : List α)
    (ha : p a = true) (hpre : ∀ x ∈ pre, p x = false) :
    (pre ++ a :: post).find? p = some a := by
  induction pre with
  | nil => simp [List.find?_cons_of_pos, ha]
  | cons x xs ih =>
    have hx : p x = false := hpre x (by simp)
    simpa [List.find?_cons_of_neg, hx] using ih fun y hy => hpre y (by simp [hy])

/-- `identify_host` returns `None` exactly when no interface MAC of any host
is reported by a MAC-carrying local NIC. -/
lemma identify_host_eq_none_iff (hosts : List Host) (nics : List NetworkInterface) :
    identify_host hosts nics = none ↔
      ∀ h ∈ hosts, ∀ i ∈ h.interfaces, ∀ n ∈ nics, ∀ m : String,
        n.mac_addr = some m → i.mac_address ≠ some m := by
  unfold identify_host
  rw [List.find?_eq_none]
  constructor
  · intro hno h hh
    exact (host_matches_eq_false_iff h nics).mp (Bool.eq_false_iff.mpr (hno h hh))
  · intro hall h hh
    exact Bool.eq_false_iff.mp ((host_matches_eq_false_iff h nics).mpr (hall h hh))

/-- C1: `identify_host` returns `None` iff no interface of any host has a
`mac_address` equal to the `mac_addr` of some local NIC that itself carries a
MAC address; NICs whose `mac_addr` is absent are never match candidates. -/
theorem C1_identify_host_none_iff (hosts : List Host) (nics : List NetworkInterface) :
    identify_host hosts nics = none ↔
      ∀ h ∈ hosts, ∀ i ∈ h.interfaces, ∀ n ∈ nics, ∀ m : String,
        n.mac_addr = some m → i.mac_address ≠ some m :=
  identify_host_eq_none_iff hosts nics

/-- Witness for C1 at the empty fleet: no host, hence no match and `None`. -/
theorem C1_identify_host_none_iff_witness : identify_host [] [] = none :=
  (C1_identify_host_none_iff [] []).mpr (by simp)

/-- C2: whenever some host matches the local NICs, `identify_host` returns the
first matching host in declaration order; earlier-declared hosts win ties. -/
theorem C2_identify_host_first (hosts : List Host) (nics : List NetworkInterface)
    (pre : List Host) (h : Host) (post : List Host)
    (hsplit : hosts = pre ++ h :: post)
    (hmatch : host_matches h nics = true)
    (hpre : ∀ h' ∈ pre, host_matches h' nics = false) :
    identify_host hosts nics = some h := by
  subst hsplit
  exact find?_first _ pre h post hmatch hpre

/-- Hosts and NIC used to witness C2: two hosts both matching the local NIC. -/
def wHostA : Host :=
  ⟨"h1", [⟨"eth0", some "00:11:22:33:44:55", "ethernet", []⟩]⟩

/-- Second host of the C2 witness, declared after `wHostA` and matching the
same NIC. -/
def wHostB : Host :=
  ⟨"h2", [⟨"eth1", some "00:11:22:33:44:55", "ethernet", []⟩]⟩

/-- Local NIC of the C2 witness, matching both hosts. -/
def wNic : NetworkInterface :=
  ⟨"ens1f0", some "00:11:22:33:44:55"⟩

/-- Witness for C2: both hosts match, the earlier-declared one is returned. -/
theorem C2_identify_host_first_witness :
    identify_host [wHostA, wHostB] [wNic] = some wHostA :=
  C2_identify_host_first [wHostA, wHostB] [wNic] [] wHostA [wHostB] rfl
    (by decide) (by simp)

/-- Model of `HashMap::insert`: replace the value stored under `k` if the key
is present, otherwise add the binding (deterministically at the end of the
association list; the Rust hash map is unordered). -/
def insertAL (m : List (String × String)) (k v : String) : List (String × String) :=
  if m.any fun p => p.1 == k then m.map fun p => if p.1 == k then (k, v) else p
  else m ++ [(k, v)]

/-- Model of `HashMap::get`: the value stored under `k`, if any. -/
def lookupAL (m : List (String × String)) (k : String) : Option String :=
  (m.find? fun p => p.1 == k).map fun p => p.2

/-- The association list stores a binding for key `k`. -/
def HasKey (m : List (String × String)) (k : String) : Prop :=
  ∃ p ∈ m, p.1 = k

/-- A lookup succeeds exactly when the key is bound. -/
lemma lookupAL_isSome_iff (m : List (String × String)) (k : String) :
    (lookupAL m k).isSome = true ↔ HasKey m k := by
  unfold lookupAL HasKey
  cases hf : m.find? fun p => p.1 == k with
  | none =>
    simp only [hf, Option.map_none', Option.isSome_none, Bool.false_eq_true, false_iff]
    rintro ⟨p, hp, hpk⟩
    exact absurd (List.find?_eq_none.mp hf p hp) (by simp [hpk])
  | some p =>
    simp only [hf, Option.map_some', Option.isSome_some, true_iff]
    have hc := @List.find?_some _ (fun q => q.1 == k) p m hf
    exact ⟨p, List.mem_of_find?_eq_some hf, beq_iff_eq.mp hc⟩

/-- A lookup fails exactly when the key is unbound. -/
lemma lookupAL_eq_none_iff (m : List (String × String)) (k : String) :
    lookupAL m k = none ↔ ¬ HasKey m k := by
  rw [← lookupAL_isSome_iff m k]
  cases lookupAL m k <;> simp

/-- Every binding of the map after an insert is either an old binding or the
inserted one. -/
lemma mem_insertAL {m : List (String × String)} {k v a b : String}
    (h : (a, b) ∈ insertAL m k v) : (a, b) ∈ m ∨ (a = k ∧ b = v) := by
  unfold insertAL at h
  split at h
  · obtain ⟨p, hp, hpe⟩ := List.mem_map.mp h
    by_cases hk : (p.1 == k) = true
    · right
      rw [if_pos hk] at hpe
      exact ⟨(Prod.mk.injEq _ _ _ _ ▸ hpe).1.symm ▸ rfl, ((Prod.mk.injEq _ _ _ _).mp hpe).2.symm ▸ rfl⟩
    · left
      rw [if_neg hk] at hpe
      exact hpe ▸ hp
  · rcases List.mem_append.mp h with h1 | h2
    · exact Or.inl h1
    · right
      simpa using h2

/-- Inserting a binding makes its key bound. -/
lemma hasKey_insertAL_self (m : List (String × String)) (k v : String) :
    HasKey (insertAL m k v) k := by
  unfold insertAL
  split
  · next hany =>
    obtain ⟨p, hp, hpk⟩ := List.any_eq_true.mp hany
    exact ⟨(k, v), List.mem_map.mpr ⟨p, hp, by simp [hpk]⟩, rfl⟩
  · exact ⟨(k, v), by simp, rfl⟩

/-- Inserting a binding keeps every previously bound key bound. -/
lemma hasKey_insertAL_mono {m : List (String × String)} {k' : String} (k v : String)
    (h : HasKey m k') : HasKey (insertAL m k v) k' := by
  obtain ⟨p, hp, hpk⟩ := h
  unfold insertAL
  split
  · by_cases hk : (p.1 == k) = true
    · exact ⟨(k, v), List.mem_map.mpr ⟨p, hp, by simp [hk]⟩,
        by simp [← hpk, beq_iff_eq.mp hk]⟩
    · exact ⟨p, List.mem_map.mpr ⟨p, hp, by simp [hk]⟩, hpk⟩
  · exact ⟨p, List.mem_append_left _ hp, hpk⟩

/-- A fold preserves any invariant preserved by each step. -/
lemma foldl_pres {α β : Type} (P : α → Prop) (f : α → β → α) (l : List β)
    (hp : ∀ a b, b ∈ l → P a → P (f a b)) (a : α) (ha : P a) : P (l.foldl f a) := by
  induction l generalizing a with
  | nil => exact ha
  | cons x xs ih =>
    exact ih (fun a b hb => hp a b (by simp [hb])) _ (hp a x (by simp) ha)

/-- A fold establishes any step-preserved property that some step of the list
establishes unconditionally. -/
lemma foldl_estab {α β : Type} (P : α → Prop) (f : α → β → α) (l : List β) (b : β)
    (hb : b ∈ l) (hp : ∀ a b', b' ∈ l → P a → P (f a b')) (he : ∀ a, P (f a b)) (a : α) :
    P (l.foldl f a) := by
  induction l generalizing a with
  | nil => cases hb
  | cons x xs ih =>
    rcases List.mem_cons.mp hb with rfl | hb'
    · exact foldl_pres P f xs (fun a b' h' => hp a b' (by simp [h'])) _ (he a)
    · exact ih hb' (fun a b' h' => hp a b' (by simp [h'])) _

/-- Phase 1 of `detect_local_interfaces` (`src/apply_conf.rs`, lines 98-112):
for every Ethernet-type interface of the host, find the first local NIC whose
`mac_addr` equals the interface's `mac_address` and whose name is not the
logical name of any preconfigured interface, and record the rename. -/
def detect_phase1 (host : Host) (network_interfaces : List NetworkInterface) :
    List (String × String) :=
  (host.interfaces.filter fun interface => interface.interface_type == "ethernet").foldl
    (fun m interface =>
      match network_interfaces.find? fun nic =>
          nic.mac_addr == interface.mac_address &&
            !(host.interfaces.any fun i => i.logical_name == nic.name) with
      | none => m
      | some detected => insertAL m interface.logical_name detected.name)
    []

/-- `detect_local_interfaces` from `src/apply_conf.rs` (lines 92-128): the
direct Ethernet renames of phase 1, extended by one propagation pass that
iterates over a snapshot of the phase-1 map (`local_interfaces.clone()`) and,
for every interface whose logical name properly contains a phase-1 key,
records that name with the key substituted by the detected local name. -/
def detect_local_interfaces (host : Host) (network_interfaces : List NetworkInterface) :
    List (String × String) :=
  (detect_phase1 host network_interfaces).foldl
    (fun m kv =>
      (host.interfaces.filter fun interface =>
          strContains interface.logical_name kv.1 && !(interface.logical_name == kv.1)).foldl
        (fun m2 interface =>
          insertAL m2 interface.logical_name (strReplace interface.logical_name kv.1 kv.2))
        m)
    (detect_phase1 host network_interfaces)

/-- Every phase-1 binding `(k, v)` of the rename map comes from an
Ethernet-type preconfigured interface with logical name `k` and a local NIC
named `v` whose MAC equals that interface's and whose name is not the logical
name of any preconfigured interface. -/
def Phase1Sound (host : Host) (nics : List NetworkInterface)
    (m : List (String × String)) : Prop :=
  ∀ k v, (k, v) ∈ m →
    ∃ i ∈ host.interfaces,
      i.interface_type = "ethernet" ∧ i.logical_name = k ∧
        ∃ nic ∈ nics, nic.mac_addr = i.mac_address ∧
          (∀ j ∈ host.interfaces, j.logical_name ≠ nic.name) ∧ v = nic.name

/-- `detect_phase1` only produces bindings justified by a direct
MAC-and-name-guarded Ethernet rename. -/
lemma detect_phase1_sound (host : Host) (nics : List NetworkInterface) :
    Phase1Sound host nics (detect_phase1 host nics) := by
  unfold detect_phase1
  refine foldl_pres _ _ _ ?_ _ ?_
  · intro m i hi hm k v hkv
    obtain ⟨hiMem, hiEth⟩ := List.mem_filter.mp hi
    revert hkv
    cases hfind : nics.find? fun nic =>
        nic.mac_addr == i.mac_address &&
          !(host.interfaces.any fun j => j.logical_name == nic.name) with
    | none =>
      intro hkv
      exact hm k v hkv
    | some nic =>
      intro hkv
      rcases mem_insertAL hkv with h1 | ⟨rfl, rfl⟩
      · exact hm k v h1
      · have hc := @List.find?_some _
          (fun nic => nic.mac_addr == i.mac_address &&
            !(host.interfaces.any fun j => j.logical_name == nic.name)) nic nics hfind
        have hc' : (nic.mac_addr == i.mac_address) = true ∧
            (!(host.interfaces.any fun j => j.logical_name == nic.name)) = true := by
          rw [← Bool.and_eq_true]
          exact hc
        obtain ⟨hmac, hname⟩ := hc'
        refine ⟨i, hiMem, beq_iff_eq.mp hiEth, rfl, nic,
          List.mem_of_find?_eq_some hfind, beq_iff_eq.mp hmac, ?_, rfl⟩
        intro j hj hcontra
        have hfalse : (host.interfaces.any fun j => j.logical_name == nic.name) = false := by
          simpa using hname
        have : (host.interfaces.any fun j => j.logical_name == nic.name) = true :=
          List.any_eq_true.mpr ⟨j, hj, beq_iff_eq.mpr hcontra⟩
        simp [hfalse] at this
  · intro k v hkv
    cases hkv

/-- Every binding of the full rename map is either a phase-1 binding or a
one-hop propagation of a phase-1 binding: its key is the logical name of a
host interface properly containing a phase-1 key `old`, and its value is that
name with `old` substituted by the phase-1 value. -/
def ResultSound (host : Host) (nics : List NetworkInterface)
    (m : List (String × String)) : Prop :=
  ∀ k v, (k, v) ∈ m →
    (k, v) ∈ detect_phase1 host nics ∨
      ∃ i ∈ host.interfaces, ∃ p ∈ detect_phase1 host nics,
        i.logical_name = k ∧ strContains k p.1 = true ∧ k ≠ p.1 ∧
          v = strReplace k p.1 p.2

/-- Phase 2 never cascades: every binding of `detect_local_interfaces` is
seeded by the phase-1 snapshot alone. -/
lemma detect_result_sound (host : Host) (nics : List NetworkInterface) :
    ResultSound host nics (detect_local_interfaces host nics) := by
  unfold detect_local_interfaces
  refine foldl_pres _ _ _ ?_ _ ?_
  · intro m kv hkv hm
    refine foldl_pres _ _ _ ?_ _ hm
    intro m2 i hi hm2 k v hkv2
    obtain ⟨hiMem, hiCond⟩ := List.mem_filter.mp hi
    rcases mem_insertAL hkv2 with h1 | ⟨rfl, rfl⟩
    · exact hm2 k v h1
    · right
      have hc' : strContains i.logical_name kv.1 = true ∧
          (!(i.logical_name == kv.1)) = true := by
        rw [← Bool.and_eq_true]
        exact hiCond
      obtain ⟨hcon, hne⟩ := hc'
      refine ⟨i, hiMem, kv, hkv, rfl, hcon, ?_, rfl⟩
      have : (i.logical_name == kv.1) = false := by simpa using hne
      exact beq_eq_false_iff_ne.mp this
  · intro k v h
    exact Or.inl h

/-- Phase 2 is complete: every host interface whose logical name properly
contains a phase-1 key ends up with a binding in the final rename map. -/
lemma detect_result_hasKey (host : Host) (nics : List NetworkInterface)
    (p : String × String) (i : Interface)
    (hp : p ∈ detect_phase1 host nics) (hi : i ∈ host.interfaces)
    (hcon : strContains i.logical_name p.1 = true) (hne : i.logical_name ≠ p.1) :
    HasKey (detect_local_interfaces host nics) i.logical_name := by
  unfold detect_local_interfaces
  refine foldl_estab (fun m => HasKey m i.logical_name) _ _ p hp ?_ ?_ _
  · intro a kv hkv ha
    exact foldl_pres (fun m => HasKey m i.logical_name) _ _
      (fun a2 j hj h2 => hasKey_insertAL_mono _ _ h2) _ ha
  · intro a
    have himem : i ∈ host.interfaces.filter fun interface =>
        strContains interface.logical_name p.1 && !(interface.logical_name == p.1) := by
      refine List.mem_filter.mpr ⟨hi, ?_⟩
      simp [hcon, hne]
    exact foldl_estab (fun m => HasKey m i.logical_name) _ _ i himem
      (fun a2 j hj h2 => hasKey_insertAL_mono _ _ h2)
      (fun a2 => hasKey_insertAL_self _ _ _) a

/-- Concrete host of the C3 scenario: Ethernet parent `eth2` and derived
bridge `eth2.bridge`. -/
def exHost : Host :=
  ⟨"node1",
    [⟨"eth2", some "36:5e:6b:a2:ed:80", "ethernet", []⟩,
     ⟨"eth2.bridge", none, "linux-bridge", []⟩]⟩

/-- Concrete local NICs of the C3 scenario: `ens1f0` carrying `eth2`'s MAC. -/
def exNics : List NetworkInterface :=
  [⟨"ens1f0", some "36:5e:6b:a2:ed:80"⟩]

/-- C3: phase 2 of `detect_local_interfaces` is computed from the phase-1
snapshot only — every binding of the result is a phase-1 binding or a one-hop
substitution seeded by a phase-1 binding, every interface properly containing
a phase-1 key gains a binding, and on the concrete `eth2`/`eth2.bridge`/
`ens1f0` scenario the resulting map is exactly
`eth2 -> ens1f0, eth2.bridge -> ens1f0.bridge`. -/
theorem C3_detect_local_interfaces_snapshot :
    (∀ (host : Host) (nics : List NetworkInterface) (k v : String),
        (k, v) ∈ detect_local_interfaces host nics →
          (k, v) ∈ detect_phase1 host nics ∨
            ∃ i ∈ host.interfaces, ∃ p ∈ detect_phase1 host nics,
              i.logical_name = k ∧ strContains k p.1 = true ∧ k ≠ p.1 ∧
                v = strReplace k p.1 p.2) ∧
    (∀ (host : Host) (nics : List NetworkInterface) (p : String × String) (i : Interface),
        p ∈ detect_phase1 host nics → i ∈ host.interfaces →
          strContains i.logical_name p.1 = true → i.logical_name ≠ p.1 →
            (lookupAL (detect_local_interfaces host nics) i.logical_name).isSome = true) ∧
    detect_local_interfaces exHost exNics =
      [("eth2", "ens1f0"), ("eth2.bridge", "ens1f0.bridge")] := by
  refine ⟨fun host nics k v h => detect_result_sound host nics k v h,
    fun host nics p i hp hi hcon hne =>
      (lookupAL_isSome_iff _ _).mpr (detect_result_hasKey host nics p i hp hi hcon hne),
    by decide⟩

/-- Witness for C3: on the concrete scenario, the propagation conjunct yields
a binding for the derived bridge name. -/
theorem C3_detect_local_interfaces_snapshot_witness :
    (lookupAL (detect_local_interfaces exHost exNics) "eth2.bridge").isSome = true :=
  C3_detect_local_interfaces_snapshot.2.1 exHost exNics ("eth2", "ens1f0")
    ⟨"eth2.bridge", none, "linux-bridge", []⟩ (by decide) (by decide) (by decide) (by decide)

/-- Host of the C4 counterexample: Ethernet parent `eth0` (renamed locally to
`ens1`) and Ethernet child `eth0.br` whose local NIC keeps its name. -/
def cHostC4 : Host :=
  ⟨"node1",
    [⟨"eth0", some "00:00:00:00:00:01", "ethernet", []⟩,
     ⟨"eth0.br", some "00:00:00:00:00:02", "ethernet", []⟩]⟩

/-- The interface of the C4 counterexample whose NIC keeps its name. -/
def cIfaceC4 : Interface :=
  ⟨"eth0.br", some "00:00:00:00:00:02", "ethernet", []⟩

/-- The local NIC of the C4 counterexample named like its interface. -/
def cNicC4 : NetworkInterface :=
  ⟨"eth0.br", some "00:00:00:00:00:02"⟩

/-- Local NICs of the C4 counterexample. -/
def cNicsC4 : List NetworkInterface :=
  [⟨"ens1", some "00:00:00:00:00:01"⟩, cNicC4]

/-- Counterexample to C4 as stated: interface `eth0.br` is Ethernet-typed, the
local NIC `eth0.br` carries its MAC and its exact logical name, yet
`detect_local_interfaces` still produces a rename-map entry for `eth0.br`
(phase-2 propagation from the renamed parent `eth0`). -/
theorem C4_counterexample :
    cIfaceC4 ∈ cHostC4.interfaces ∧ cIfaceC4.interface_type = "ethernet" ∧
      cNicC4 ∈ cNicsC4 ∧ cNicC4.mac_addr = cIfaceC4.mac_address ∧
        cNicC4.name = cIfaceC4.logical_name ∧
          lookupAL (detect_local_interfaces cHostC4 cNicsC4) "eth0.br" = some "ens1.br" := by
  decide

/-- C4 (amended): if the local NIC `N` carries interface `I`'s MAC and exactly
`I`'s logical name, no other local NIC shares that MAC, `I`'s logical name is
unique within the host, and no other preconfigured interface's logical name is
a substring of `I`'s logical name, then `detect_local_interfaces` produces no
rename-map entry for `I.logical_name`. -/
theorem C4_no_rename_when_nic_name_matches (host : Host) (nics : List NetworkInterface)
    (I : Interface) (N : NetworkInterface)
    (hI : I ∈ host.interfaces) (hEth : I.interface_type = "ethernet")
    (hN : N ∈ nics) (hmac : N.mac_addr = I.mac_address) (hname : N.name = I.logical_name)
    (huniqN : ∀ n ∈ nics, n.mac_addr = I.mac_address → n = N)
    (huniqI : ∀ J ∈ host.interfaces, J.logical_name = I.logical_name → J = I)
    (hnosub : ∀ J ∈ host.interfaces, J.logical_name ≠ I.logical_name →
        strContains I.logical_name J.logical_name = false) :
    lookupAL (detect_local_interfaces host nics) I.logical_name = none := by
  rw [lookupAL_eq_none_iff]
  rintro ⟨⟨k, v⟩, hmem, hk⟩
  simp only at hk
  subst hk
  rcases detect_result_sound host nics _ v hmem with h1 | ⟨i, hi, pp, hpp, hiname, hcon, hne, hv⟩
  · obtain ⟨i, hi, hiEth, hiname, nic, hnic, hnmac, hnoname, hvv⟩ :=
      detect_phase1_sound host nics _ v h1
    have hiI : i = I := huniqI i hi hiname
    subst hiI
    have hnicN : nic = N := huniqN nic hnic (by rw [hnmac])
    subst hnicN
    exact hnoname i hI (hname ▸ rfl)
  · obtain ⟨K, hK, hKeth, hKname, hrest⟩ :=
      detect_phase1_sound host nics pp.1 pp.2 (by simpa using hpp)
    have hKneI : K.logical_name ≠ I.logical_name := by
      rw [hKname]
      exact Ne.symm hne
    have hfalse := hnosub K hK hKneI
    rw [hKname] at hfalse
    simp [hfalse] at hcon

/-- Host of the C4 witness: a single Ethernet interface whose NIC keeps its
name. -/
def wHostC4 : Host :=
  ⟨"node1", [⟨"eth0", some "00:11:22:33:44:55", "ethernet", []⟩]⟩

/-- Local NIC of the C4 witness, named like the preconfigured interface. -/
def wNicC4 : NetworkInterface :=
  ⟨"eth0", some "00:11:22:33:44:55"⟩

/-- Witness for the amended C4: when the matching NIC keeps the preconfigured
name and there is no competing NIC or embedding interface name, no rename
entry is produced. -/
theorem C4_no_rename_when_nic_name_matches_witness :
    lookupAL (detect_local_interfaces wHostC4 [wNicC4]) "eth0" = none :=
  C4_no_rename_when_nic_name_matches wHostC4 [wNicC4]
    ⟨"eth0", some "00:11:22:33:44:55", "ethernet", []⟩ wNicC4
    (by decide) (by decide) (by decide) (by decide) (by decide)
    (by decide) (by decide) (by decide)

/-- Parsed view of one generated connection-profile file: exactly the Ini
fields that `populate_connection_ids` (`src/generate_conf.rs`) reads —
`[connection] type`, `[connection] interface-name`, `[ethernet] mac-address`
and `[connection] id` — together with the file name. The Ini parsing itself
is performed by the external `configparser` crate and is not modelled. -/
structure ConnectionProfile where
  filename : String
  ctype : Option String
  interface_name : Option String
  mac_address : Option String
  connection_id : Option String
deriving DecidableEq

/-- The interface-matching closure of `populate_connection_ids`
(`src/generate_conf.rs`, lines 136-146): when the profile carries a MAC
address and the interface has one, compare the two lower-cased; otherwise,
when the profile names an interface, compare logical names exactly;
otherwise no match. -/
def profile_matches (x : Interface) (interface_name mac_address : Option String) : Bool :=
  match mac_address, x.mac_address with
  | some mac, some imac => strToLower imac == strToLower mac
  | _, _ =>
    match interface_name with
    | some iname => x.logical_name == iname
    | none => false

/-- Model of `interfaces.iter_mut().find(..)` followed by
`connection_ids.push(id)`: append `cid` to the connection ids of the first
interface satisfying `pred`, or `none` when no interface matches. -/
def pushToFirst (pred : Interface → Bool) (cid : String) :
    List Interface → Option (List Interface)
  | [] => none
  | x :: xs =>
    if pred x then some ({ x with connection_ids := x.connection_ids ++ [cid] } :: xs)
    else (pushToFirst pred cid xs).map (x :: ·)

/-- `populate_connection_ids` from `src/generate_conf.rs` (lines 111-158):
for every profile, skip loopback connections, fail when neither identifier is
present, fail when the connection id is missing, attribute the connection id
to the first matching interface, and fail when none matches. -/
def populate_connection_ids (interfaces : List Interface) :
    List ConnectionProfile → Except String (List Interface)
  | [] => Except.ok interfaces
  | profile :: rest =>
    if profile.ctype == some "loopback" then
      populate_connection_ids interfaces rest
    else if profile.mac_address.isNone && profile.interface_name.isNone then
      Except.error ("No identifier found in connection file: " ++ profile.filename ++
        " (expected interface-name or mac-address)")
    else
      match profile.connection_id with
      | none =>
        Except.error ("No connection id found in connection file: " ++ profile.filename)
      | some cid =>
        match pushToFirst
            (fun x => profile_matches x profile.interface_name profile.mac_address)
            cid interfaces with
        | none =>
          Except.error ("No matching interface found for connection file: " ++
            profile.filename)
        | some updated => populate_connection_ids updated rest

/-- C7: a loopback-typed connection profile is skipped entirely by
`populate_connection_ids`: processing it is the same as not having it at all,
so it changes no interface and raises no error, even without identifiers. -/
theorem C7_loopback_profile_skipped (interfaces : List Interface)
    (profile : ConnectionProfile) (rest : List ConnectionProfile)
    (h : profile.ctype = some "loopback") :
    populate_connection_ids interfaces (profile :: rest) =
      populate_connection_ids interfaces rest := by
  simp [populate_connection_ids, h]

/-- Loopback profile of the C7 witness: no identifier at all, still no
error. -/
def wProfileC7 : ConnectionProfile :=
  ⟨"lo.nmconnection", some "loopback", none, none, some "lo"⟩

/-- Interface list of the C7 witness. -/
def wIfsC7 : List Interface :=
  [⟨"eth0", some "00:11:22:33:44:55", "ethernet", []⟩]

/-- Witness for C7: a loopback profile without identifiers leaves the
interfaces untouched and succeeds. -/
theorem C7_loopback_profile_skipped_witness :
    populate_connection_ids wIfsC7 [wProfileC7] = Except.ok wIfsC7 := by
  rw [C7_loopback_profile_skipped wIfsC7 wProfileC7 [] rfl]
  rfl

/-- Host of the C5 counterexample: its configured MAC is upper-case and is
lower-cased by `parse_hosts`. -/
def cHostC5 : Host :=
  ⟨"h1", [⟨"eth0", some "AA:BB:CC:DD:EE:FF", "ethernet", []⟩]⟩

/-- Local NIC of the C5 counterexample reporting the same MAC in upper
case. -/
def cNicC5upper : NetworkInterface :=
  ⟨"eth0", some "AA:BB:CC:DD:EE:FF"⟩

/-- Local NIC reporting the same MAC in lower case. -/
def cNicC5lower : NetworkInterface :=
  ⟨"eth0", some "aa:bb:cc:dd:ee:ff"⟩

/-- Local NIC of the C5 rename-detection scenario: a differently named NIC
reporting the configured MAC in upper case. -/
def cNicC5upperEns1 : NetworkInterface :=
  ⟨"ens1", some "AA:BB:CC:DD:EE:FF"⟩

/-- Local NIC of the C5 rename-detection scenario reporting the configured
MAC in lower case. -/
def cNicC5lowerEns1 : NetworkInterface :=
  ⟨"ens1", some "aa:bb:cc:dd:ee:ff"⟩

/-- Counterexample to C5 as stated: host identification compares the
lower-cased configured MAC verbatim against the NIC MAC, so a NIC reporting
the identical MAC in upper case is not matched, while the lower-case variant
is — the comparison is case-sensitive on the NIC side. -/
theorem C5_counterexample :
    identify_host (parse_hosts_normalization [cHostC5]) [cNicC5upper] = none ∧
      identify_host (parse_hosts_normalization [cHostC5]) [cNicC5lower] =
        some ⟨"h1", [⟨"eth0", some "aa:bb:cc:dd:ee:ff", "ethernet", []⟩]⟩ := by
  exact ⟨rfl, rfl⟩

/-- C5 (amended): connection-profile attribution compares MAC addresses
case-insensitively (both sides lower-cased), while host identification and
rename detection lower-case only the preconfigured side — `parse_hosts`
lower-cases the host interface MACs, `identify_host` then matches a host
exactly when some local NIC reports the lower-cased configured MAC verbatim,
and every direct rename recorded by `detect_local_interfaces` (phase 1) for a
normalized host is witnessed by a NIC whose reported `mac_addr` equals the
lower-cased configured MAC verbatim; concretely, rename detection rejects an
upper-case NIC MAC and accepts the lower-case one. -/
theorem C5_mac_comparison_amended :
    (∀ (x : Interface) (iname : Option String) (imac m : String),
        x.mac_address = some imac →
          (profile_matches x iname (some m) = true ↔ strToLower imac = strToLower m)) ∧
    (∀ (hosts : List Host) (nics : List NetworkInterface),
        identify_host (parse_hosts_normalization hosts) nics = none ↔
          ∀ h ∈ hosts, ∀ i ∈ h.interfaces, ∀ m : String, i.mac_address = some m →
            ∀ n ∈ nics, n.mac_addr ≠ some (strToLower m)) ∧
    (∀ (h : Host) (nics : List NetworkInterface) (k v : String),
        (k, v) ∈ detect_phase1
          { h with
            interfaces := h.interfaces.map fun j =>
              { j with mac_address := j.mac_address.map strToLower } } nics →
          ∃ i ∈ h.interfaces, i.interface_type = "ethernet" ∧ i.logical_name = k ∧
            ∃ nic ∈ nics, v = nic.name ∧ nic.mac_addr = i.mac_address.map strToLower) ∧
    (∀ h ∈ parse_hosts_normalization [cHostC5],
        detect_local_interfaces h [cNicC5upperEns1] = [] ∧
          detect_local_interfaces h [cNicC5lowerEns1] = [("eth0", "ens1")]) := by
  refine ⟨?_, ?_, ?_, by decide⟩
  · intro x iname imac m hx
    simp [profile_matches, hx]
  · intro hosts nics
    rw [identify_host_eq_none_iff]
    constructor
    · intro hall h hh i hi m hm n hn hcontra
      exact hall
        { h with
          interfaces := h.interfaces.map fun j =>
            { j with mac_address := j.mac_address.map strToLower } }
        (List.mem_map.mpr ⟨h, hh, rfl⟩)
        { i with mac_address := i.mac_address.map strToLower }
        (List.mem_map.mpr ⟨i, hi, rfl⟩)
        n hn (strToLower m) hcontra (by simp [hm])
    · intro hall h' hh' i' hi' n hn m' hm' hcontra
      obtain ⟨h, hh, rfl⟩ := List.mem_map.mp hh'
      obtain ⟨i, hi, rfl⟩ := List.mem_map.mp hi'
      simp only [Option.map_eq_some'] at hcontra
      obtain ⟨m, hm, rfl⟩ := hcontra
      exact hall h hh i hi m hm n hn hm'
  · intro h nics k v hkv
    obtain ⟨i', hi', hEth', hname', nic, hnic, hnmac, hguard, hv⟩ :=
      detect_phase1_sound _ nics k v hkv
    obtain ⟨i, hi, rfl⟩ := List.mem_map.mp hi'
    exact ⟨i, hi, hEth', hname', nic, hnic, hv, hnmac⟩

/-- Witness for the amended C5: attribution matches MACs that differ only in
letter case. -/
theorem C5_mac_comparison_amended_witness :
    profile_matches ⟨"eth0", some "AA:BB:CC:DD:EE:FF", "ethernet", []⟩ none
      (some "aa:bb:cc:dd:ee:ff") = true :=
  (C5_mac_comparison_amended.1 ⟨"eth0", some "AA:BB:CC:DD:EE:FF", "ethernet", []⟩ none
    "AA:BB:CC:DD:EE:FF" "aa:bb:cc:dd:ee:ff" rfl).mpr (by decide)

/-- First interface of the C6 counterexample. -/
def cIf1C6 : Interface :=
  ⟨"eth0", some "aa:aa:aa:aa:aa:aa", "ethernet", []⟩

/-- Second interface of the C6 counterexample, with the same MAC address. -/
def cIf2C6 : Interface :=
  ⟨"eth1", some "aa:aa:aa:aa:aa:aa", "ethernet", []⟩

/-- Connection profile of the C6 counterexample, identified by the duplicated
MAC. -/
def cProfC6 : ConnectionProfile :=
  ⟨"eth0.nmconnection", some "ethernet", none, some "aa:aa:aa:aa:aa:aa", some "eth0-conn"⟩

/-- Counterexample to C6 as stated: two interfaces match the profile's MAC,
yet attribution does not fail with an ambiguity error — it succeeds and
assigns the connection id to the first matching interface. -/
theorem C6_counterexample :
    profile_matches cIf1C6 cProfC6.interface_name cProfC6.mac_address = true ∧
      profile_matches cIf2C6 cProfC6.interface_name cProfC6.mac_address = true ∧
        populate_connection_ids [cIf1C6, cIf2C6] [cProfC6] =
          Except.ok [⟨"eth0", some "aa:aa:aa:aa:aa:aa", "ethernet", ["eth0-conn"]⟩, cIf2C6] :=
  ⟨rfl, rfl, rfl⟩

/-- C6 (amended): for a non-loopback profile carrying an identifier and a
connection id, `populate_connection_ids` attributes the connection id to the
first matching interface in sequence order and succeeds; no ambiguity check
is performed when several interfaces match. -/
theorem C6_attribution_first_match (pre : List Interface) (x : Interface)
    (post : List Interface) (p : ConnectionProfile) (cid : String)
    (hlo : p.ctype ≠ some "loopback")
    (hid : ¬(p.mac_address = none ∧ p.interface_name = none))
    (hcid : p.connection_id = some cid)
    (hpre : ∀ y ∈ pre, profile_matches y p.interface_name p.mac_address = false)
    (hx : profile_matches x p.interface_name p.mac_address = true) :
    populate_connection_ids (pre ++ x :: post) [p] =
      Except.ok (pre ++ { x with connection_ids := x.connection_ids ++ [cid] } :: post) := by
  have hpush : pushToFirst (fun y => profile_matches y p.interface_name p.mac_address) cid
      (pre ++ x :: post) =
        some (pre ++ { x with connection_ids := x.connection_ids ++ [cid] } :: post) := by
    induction pre with
    | nil => simp [pushToFirst, hx]
    | cons a as ih =>
      have ha := hpre a (by simp)
      simp [pushToFirst, ha, ih fun y hy => hpre y (by simp [hy])]
  have hctype : (p.ctype == some "loopback") = false := beq_eq_false_iff_ne.mpr hlo
  have hguard : (p.mac_address.isNone && p.interface_name.isNone) = false := by
    cases hma : p.mac_address <;> cases hin : p.interface_name <;> simp_all
  simp [populate_connection_ids, hctype, hguard, hcid, hpush]

/-- Witness for the amended C6: with two interfaces sharing the profile's MAC,
the earlier one receives the connection id and the call succeeds. -/
theorem C6_attribution_first_match_witness :
    populate_connection_ids [cIf1C6, cIf2C6] [cProfC6] =
      Except.ok [⟨"eth0", some "aa:aa:aa:aa:aa:aa", "ethernet", ["eth0-conn"]⟩, cIf2C6] :=
  C6_attribution_first_match [] cIf1C6 [cIf2C6] cProfC6 "eth0-conn"
    (by decide) (by decide) rfl (by simp) rfl

/-- `validate_interfaces` from `src/generate_conf.rs` (lines 174-205): fail
when no Ethernet-type interface is present; in strict mode
(`require_mac_addresses = true`) additionally fail when some Ethernet
interface lacks a MAC address, listing all offending Ethernet interfaces in
one comma-joined report. -/
def validate_interfaces (interfaces : List Interface) (require_mac_addresses : Bool) :
    Except String Unit :=
  if (interfaces.filter fun i => i.interface_type == "ethernet").isEmpty then
    Except.error "No Ethernet interfaces were provided"
  else if !require_mac_addresses then Except.ok ()
  else if (((interfaces.filter fun i => i.interface_type == "ethernet").filter
      fun i => i.mac_address.isNone).map fun i => i.logical_name).isEmpty then
    Except.ok ()
  else
    Except.error ("Detected Ethernet interfaces without a MAC address: " ++
      joinSep ", " (((interfaces.filter fun i => i.interface_type == "ethernet").filter
        fun i => i.mac_address.isNone).map fun i => i.logical_name))

/-- Counterexample to C8 as stated: on an interface list with no Ethernet
interface at all, strict-mode `validate_interfaces` fails even though no
Ethernet-type interface lacks a `mac_address`, so "fails exactly when some
Ethernet-type interface lacks a mac_address" does not hold. -/
theorem C8_counterexample :
    validate_interfaces [] true = Except.error "No Ethernet interfaces were provided" ∧
      ¬∃ i : Interface, i ∈ ([] : List Interface) ∧
        i.interface_type = "ethernet" ∧ i.mac_address = none :=
  ⟨rfl, by simp⟩

/-- The Ethernet filter of a list containing an Ethernet interface is
nonempty. -/
lemma ethernet_filter_nonempty {interfaces : List Interface} {e : Interface}
    (he : e ∈ interfaces) (heth : e.interface_type = "ethernet") :
    ((interfaces.filter fun i => i.interface_type == "ethernet").isEmpty) = false := by
  rw [Bool.eq_false_iff]
  intro hcontra
  rw [List.isEmpty_iff] at hcontra
  have hmem : e ∈ interfaces.filter fun i => i.interface_type == "ethernet" :=
    List.mem_filter.mpr ⟨he, by simp [heth]⟩
  rw [hcontra] at hmem
  cases hmem

/-- C8 (amended): given at least one Ethernet-type interface, strict-mode
`validate_interfaces` succeeds iff every Ethernet interface carries a MAC
address; when some Ethernet interface lacks one, the error aggregates the
logical names of exactly the offending Ethernet interfaces, comma-joined, and
on the concrete `eth0` (MAC present) / `eth1` (MAC absent) host the message
lists exactly `eth1`. An interface list with no Ethernet interface fails for
a different reason ("No Ethernet interfaces were provided"). -/
theorem C8_strict_validation (interfaces : List Interface) (e : Interface)
    (he : e ∈ interfaces) (heth : e.interface_type = "ethernet") :
    ((validate_interfaces interfaces true = Except.ok ()) ↔
      ∀ i ∈ interfaces, i.interface_type = "ethernet" → i.mac_address ≠ none) ∧
    ((∃ i ∈ interfaces, i.interface_type = "ethernet" ∧ i.mac_address = none) →
      validate_interfaces interfaces true =
        Except.error ("Detected Ethernet interfaces without a MAC address: " ++
          joinSep ", " (((interfaces.filter fun i => i.interface_type == "ethernet").filter
            fun i => i.mac_address.isNone).map fun i => i.logical_name))) ∧
    validate_interfaces
      [⟨"eth0", some "00:11:22:33:44:55", "ethernet", []⟩,
       ⟨"eth1", none, "ethernet", []⟩] true =
      Except.error "Detected Ethernet interfaces without a MAC address: eth1" := by
  have hfil := ethernet_filter_nonempty he heth
  have hmissing : ((((interfaces.filter fun i => i.interface_type == "ethernet").filter
      fun i => i.mac_address.isNone).map fun i => i.logical_name).isEmpty = true) ↔
        ∀ i ∈ interfaces, i.interface_type = "ethernet" → i.mac_address ≠ none := by
    rw [List.isEmpty_iff, List.map_eq_nil_iff, List.filter_eq_nil_iff]
    constructor
    · intro hno i hi hiEth hiNone
      exact hno i (List.mem_filter.mpr ⟨hi, by simp [hiEth]⟩) (by simp [hiNone])
    · intro hall i hi hcontra
      obtain ⟨him, hieth⟩ := List.mem_filter.mp hi
      exact hall i him (beq_iff_eq.mp hieth) (Option.isNone_iff_eq_none.mp hcontra)
  refine ⟨?_, ?_, rfl⟩
  · unfold validate_interfaces
    rw [hfil]
    cases hmiss : (((interfaces.filter fun i => i.interface_type == "ethernet").filter
        fun i => i.mac_address.isNone).map fun i => i.logical_name).isEmpty with
    | true => simpa using hmissing.mp hmiss
    | false =>
      simp only [Bool.not_true, if_false, if_true]
      constructor
      · intro hcontra
        cases hcontra
      · intro hall
        rw [hmissing.mpr hall] at hmiss
        cases hmiss
  · intro hex
    unfold validate_interfaces
    rw [hfil]
    have hmiss : (((interfaces.filter fun i => i.interface_type == "ethernet").filter
        fun i => i.mac_address.isNone).map fun i => i.logical_name).isEmpty = false := by
      rw [Bool.eq_false_iff]
      intro hcontra
      obtain ⟨i, hi, hiEth, hiNone⟩ := hex
      exact (hmissing.mp hcontra) i hi hiEth hiNone
    rw [hmiss]
    simp

/-- Witness for the amended C8: a host whose only Ethernet interface carries a
MAC passes strict validation. -/
theorem C8_strict_validation_witness :
    validate_interfaces [⟨"eth0", some "00:11:22:33:44:55", "ethernet", []⟩] true =
      Except.ok () :=
  (C8_strict_validation [⟨"eth0", some "00:11:22:33:44:55", "ethernet", []⟩]
    ⟨"eth0", some "00:11:22:33:44:55", "ethernet", []⟩ (by simp) rfl).1.mpr (by decide)

/-- `CONNECTION_FILE_EXT` from `src/apply_conf.rs`. -/
def CONNECTION_FILE_EXT : String := "nmconnection"

/-- Model of `Path::new(dir).join(file)` on Unix: an absolute `file` replaces
the path, otherwise a separator is added unless `dir` already ends with
one. -/
def path_join (dir file : String) : String :=
  if strStartsWith file "/" then file
  else if strEndsWith dir "/" then dir ++ file
  else dir ++ "/" ++ file

/-- `keyfile_path` from `src/apply_conf.rs` (lines 233-246): `None` on an
empty directory or filename, otherwise the joined path with the profile
extension appended by literal suffix concatenation (never
`Path::with_extension`, which would truncate dotted interface names). -/
def keyfile_path (dir filename : String) : Option String :=
  if dir == "" || filename == "" then none
  else some (path_join dir filename ++ "." ++ CONNECTION_FILE_EXT)

/-- C9: for non-empty `dir` and `filename`, `keyfile_path` returns the joined
path with `.nmconnection` appended by literal suffix concatenation; in the
common case (relative filename, no trailing separator) that is exactly
`dir/filename.nmconnection`, and embedded dots in the interface name are
preserved: `keyfile_path "dir" "eth0.1234"` is `dir/eth0.1234.nmconnection`. -/
theorem C9_keyfile_path_appends_extension :
    (∀ dir filename : String, dir ≠ "" → filename ≠ "" →
      keyfile_path dir filename =
        some (path_join dir filename ++ "." ++ CONNECTION_FILE_EXT)) ∧
    (∀ dir filename : String, dir ≠ "" → filename ≠ "" →
      strStartsWith filename "/" = false → strEndsWith dir "/" = false →
      keyfile_path dir filename =
        some (dir ++ "/" ++ filename ++ "." ++ CONNECTION_FILE_EXT)) ∧
    keyfile_path "dir" "eth0.1234" = some "dir/eth0.1234.nmconnection" := by
  refine ⟨?_, ?_, rfl⟩
  · intro dir filename hd hf
    have h1 : (dir == "") = false := beq_eq_false_iff_ne.mpr hd
    have h2 : (filename == "") = false := beq_eq_false_iff_ne.mpr hf
    simp [keyfile_path, h1, h2]
  · intro dir filename hd hf hs he
    have h1 : (dir == "") = false := beq_eq_false_iff_ne.mpr hd
    have h2 : (filename == "") = false := beq_eq_false_iff_ne.mpr hf
    simp [keyfile_path, path_join, h1, h2, hs, he]

/-- Witness for C9 on the repository's own test vector. -/
theorem C9_keyfile_path_appends_extension_witness :
    keyfile_path "some-dir" "eth0" = some "some-dir/eth0.nmconnection" :=
  C9_keyfile_path_appends_extension.2.1 "some-dir" "eth0"
    (by decide) (by decide) (by decide) (by decide)

/-- The `nmstate::InterfaceType` variants relevant to this program, plus a
catch-all for the remaining variants; `extract_interfaces` compares the enum
value against `InterfaceType::Loopback` and serializes it with
`to_string`. -/
inductive InterfaceType where
  | ethernet
  | vlan
  | vxlan
  | bond
  | linuxBridge
  | ovsBridge
  | ovsInterface
  | loopback
  | dummy
  | unknown
deriving DecidableEq

/-- The `Display` rendering of `nmstate::InterfaceType` for the modelled
variants. -/
def InterfaceType.toStr : InterfaceType → String
  | .ethernet => "ethernet"
  | .vlan => "vlan"
  | .vxlan => "vxlan"
  | .bond => "bond"
  | .linuxBridge => "linux-bridge"
  | .ovsBridge => "ovs-bridge"
  | .ovsInterface => "ovs-interface"
  | .loopback => "loopback"
  | .dummy => "dummy"
  | .unknown => "unknown"

/-- The fields of an `nmstate` interface that `extract_interfaces` reads:
`name()`, `base_iface().mac_address` and `iface_type()`. -/
structure NmstateInterface where
  name : String
  mac_address : Option String
  iface_type : InterfaceType
deriving DecidableEq

/-- The field of `nmstate::NetworkState` that `extract_interfaces` reads. -/
structure NetworkState where
  interfaces : List NmstateInterface
deriving DecidableEq

/-- `extract_interfaces` from `src/generate_conf.rs` (lines 160-172): the
structural interface list of a network state, with loopback-typed interfaces
filtered out and empty `connection_ids`. -/
def extract_interfaces (network_state : NetworkState) : List Interface :=
  (network_state.interfaces.filter fun i => !(i.iface_type == InterfaceType.loopback)).map
    fun i => ⟨i.name, i.mac_address, i.iface_type.toStr, []⟩

/-- Attributing a connection id preserves every interface's name, MAC and
type: the updated list is field-wise identical except for `connection_ids`. -/
lemma pushToFirst_shape {pred : Interface → Bool} {cid : String} :
    ∀ {l l' : List Interface}, pushToFirst pred cid l = some l' →
      ∀ x ∈ l', ∃ y ∈ l, x.logical_name = y.logical_name ∧
        x.mac_address = y.mac_address ∧ x.interface_type = y.interface_type := by
  intro l
  induction l with
  | nil => intro l' h; cases h
  | cons a as ih =>
    intro l' h x hx
    unfold pushToFirst at h
    by_cases hp : pred a = true
    · rw [if_pos hp, Option.some_inj] at h
      subst h
      rcases List.mem_cons.mp hx with rfl | hxs
      · exact ⟨a, by simp, rfl, rfl, rfl⟩
      · exact ⟨x, by simp [hxs], rfl, rfl, rfl⟩
    · rw [if_neg hp, Option.map_eq_some'] at h
      obtain ⟨l'', hl'', rfl⟩ := h
      rcases List.mem_cons.mp hx with rfl | hxs
      · exact ⟨x, by simp, rfl, rfl, rfl⟩
      · obtain ⟨y, hy, hys⟩ := ih hl'' x hxs
        exact ⟨y, by simp [hy], hys⟩

/-- `populate_connection_ids` only ever appends connection ids: every
interface of a successful result agrees with some input interface on name,
MAC and type. -/
lemma populate_connection_ids_shape :
    ∀ (profiles : List ConnectionProfile) (interfaces result : List Interface),
      populate_connection_ids interfaces profiles = Except.ok result →
        ∀ x ∈ result, ∃ y ∈ interfaces, x.logical_name = y.logical_name ∧
          x.mac_address = y.mac_address ∧ x.interface_type = y.interface_type := by
  intro profiles
  induction profiles with
  | nil =>
    intro interfaces result h x hx
    unfold populate_connection_ids at h
    rw [Except.ok.injEq] at h
    subst h
    exact ⟨x, hx, rfl, rfl, rfl⟩
  | cons p ps ih =>
    intro interfaces result h x hx
    unfold populate_connection_ids at h
    split at h
    · exact ih interfaces result h x hx
    · split at h
      · cases h
      · split at h
        · cases h
        · next cid hcid =>
          split at h
          · cases h
          · next updated hpush =>
            obtain ⟨y, hy, h1, h2, h3⟩ := ih updated result h x hx
            obtain ⟨z, hz, g1, g2, g3⟩ := pushToFirst_shape hpush y hy
            exact ⟨z, hz, h1.trans g1, h2.trans g2, h3.trans g3⟩

/-- C10: the structural interface list produced by `extract_interfaces`
contains no interface of loopback type — every produced record comes from a
non-loopback `nmstate` interface, every non-loopback interface is kept — and
connection-id attribution preserves names, MACs and types, so the Host
records serialized at generate time inherit the same loopback-free list. -/
theorem C10_extract_interfaces_no_loopback :
    (∀ (ns : NetworkState) (x : Interface), x ∈ extract_interfaces ns →
      ∃ i ∈ ns.interfaces, i.iface_type ≠ InterfaceType.loopback ∧
        x = ⟨i.name, i.mac_address, i.iface_type.toStr, []⟩) ∧
    (∀ (ns : NetworkState) (i : NmstateInterface), i ∈ ns.interfaces →
      i.iface_type ≠ InterfaceType.loopback →
        (⟨i.name, i.mac_address, i.iface_type.toStr, []⟩ : Interface) ∈
          extract_interfaces ns) ∧
    (∀ (ns : NetworkState) (profiles : List ConnectionProfile) (result : List Interface),
      populate_connection_ids (extract_interfaces ns) profiles = Except.ok result →
        ∀ x ∈ result, ∃ i ∈ ns.interfaces, i.iface_type ≠ InterfaceType.loopback ∧
          x.interface_type = i.iface_type.toStr) := by
  refine ⟨?_, ?_, ?_⟩
  · intro ns x hx
    obtain ⟨i, hi, rfl⟩ := List.mem_map.mp hx
    obtain ⟨him, hcond⟩ := List.mem_filter.mp hi
    refine ⟨i, him, ?_, rfl⟩
    intro hcontra
    simp [hcontra] at hcond
  · intro ns i hi hne
    exact List.mem_map.mpr ⟨i, List.mem_filter.mpr ⟨hi, by simp [hne]⟩, rfl⟩
  · intro ns profiles result h x hx
    obtain ⟨y, hy, h1, h2, h3⟩ := populate_connection_ids_shape profiles _ result h x hx
    obtain ⟨i, hi, rfl⟩ := List.mem_map.mp hy
    obtain ⟨him, hcond⟩ := List.mem_filter.mp hi
    refine ⟨i, him, ?_, h3⟩
    intro hcontra
    simp [hcontra] at hcond

/-- Network state of the C10 witness: one Ethernet and one loopback
interface. -/
def wNsC10 : NetworkState :=
  ⟨[⟨"eth1", some "fe:c4:05:42:8b:aa", InterfaceType.ethernet⟩,
    ⟨"lo", some "00:00:00:00:00:00", InterfaceType.loopback⟩]⟩

/-- Witness for C10: the Ethernet interface survives extraction (and the
loopback one is absent, as the completeness and soundness conjuncts show). -/
theorem C10_extract_interfaces_no_loopback_witness :
    (⟨"eth1", some "fe:c4:05:42:8b:aa", "ethernet", []⟩ : Interface) ∈
      extract_interfaces wNsC10 :=
  C10_extract_interfaces_no_loopback.2.1 wNsC10
    ⟨"eth1", some "fe:c4:05:42:8b:aa", InterfaceType.ethernet⟩ (by decide) (by decide)

end NmConfigurator
